import Mathlib

/-
Verification of the two loss criteria of the fairseq-entmax repository:
`fairseq/criterions/entmax_loss.py` (EntmaxLossCriterion) and
`fairseq/criterions/fyls_loss.py` (FenchelYoungLabelSmoothingLossCriterion).

Tensors of logits are embedded as lists of rows of rationals (a row per
target position, one entry per vocabulary item); targets as lists of
naturals.  Python float arithmetic is embedded in ℚ, exact for the
comparisons and linear arithmetic these criteria perform.  A constructor
whose `assert` fails is embedded as returning `none`.  The loss classes
imported from the external `entmax` package (and `nn.CrossEntropyLoss`)
are values of the inductive `CriterionKind`; their numeric semantics is an
arbitrary function `CriterionSem`, since every claim here is about which
class is bound and how its output is combined, never about the entmax
number itself.
-/

/-- The loss classes a criterion can bind: `nn.CrossEntropyLoss`,
`Entmax15Loss`, `SparsemaxLoss`, or `partial(EntmaxBisectLoss, alpha=...)`. -/
inductive CriterionKind where
  | crossEntropy : CriterionKind
  | entmax15 : CriterionKind
  | sparsemax : CriterionKind
  | entmaxBisect (alpha : ℚ) : CriterionKind
deriving DecidableEq

/-- A loss tensor: a scalar after `reduction="sum"`, a per-position vector
after `reduction="none"`. -/
inductive LossVal where
  | scalar (x : ℚ) : LossVal
  | vec (v : List ℚ) : LossVal
deriving DecidableEq

/-- Elementwise tensor addition (`loss_ystar + loss_smooth`); the two
operands always have the same shape in the code, so the off-shape case is
arbitrary. -/
def LossVal.add : LossVal → LossVal → LossVal
  | .scalar a, .scalar b => .scalar (a + b)
  | .vec a, .vec b => .vec (List.zipWith (fun x y => x + y) a b)
  | a, _ => a

/-- Numeric semantics of a bound loss class, applied as
`criterion(ignore_index=pad, reduction=...)(logits, target)`: arguments are
the kind, the ignore index, the reduce flag (`true` = `"sum"`), the
flattened logits and the flattened target. -/
def CriterionSem : Type :=
  CriterionKind → ℤ → Bool → List (List ℚ) → List ℕ → LossVal

/-- A batch as the criteria see it: the model output on `net_input`
(batch × length × vocabulary logits), the 2-d `sample["target"]`, and
`sample["ntokens"]`. -/
structure Sample where
  netOutputLogits : List (List (List ℚ))
  target : List (List ℕ)
  ntokens : ℕ
deriving DecidableEq

/-- `logits.view(-1, logits.size(-1))`: flatten batch and length dimensions. -/
def Sample.flatLogits (s : Sample) : List (List ℚ) :=
  s.netOutputLogits.flatten

/-- `model.get_targets(sample, net_output).view(-1)`. -/
def Sample.flatTarget (s : Sample) : List ℕ :=
  s.target.flatten

/-- `sample["target"].size(0)`: the number of sentences in the batch. -/
def Sample.nsentences (s : Sample) : ℕ :=
  s.target.length

/- ------------------------------------------------------------------
EntmaxLossCriterion (entmax_loss.py)
------------------------------------------------------------------ -/

structure EntmaxLossCriterion where
  padding_idx : ℤ
  sentence_avg : Bool
  criterion : CriterionKind
deriving DecidableEq

/-- `EntmaxLossCriterion.__init__`: `assert loss_alpha > 1`, then an
`if/elif/else` chain binds the loss class. -/
def EntmaxLossCriterion.init (task_padding_idx : ℤ) (loss_alpha : ℚ)
    (sentence_avg : Bool) : Option EntmaxLossCriterion :=
  if loss_alpha > 1 then
    some { padding_idx := task_padding_idx
           sentence_avg := sentence_avg
           criterion :=
             if loss_alpha = 1.5 then .entmax15
             else if loss_alpha = 2 then .sparsemax
             else .entmaxBisect loss_alpha }
  else
    none

/-- `EntmaxLossCriterion.compute_loss`: applies the bound criterion to the
flattened logits and target and returns the value twice (`return loss,
loss  # weird`). -/
def EntmaxLossCriterion.compute_loss (sem : CriterionSem)
    (c : EntmaxLossCriterion) (s : Sample) (reduce : Bool) :
    LossVal × LossVal :=
  let loss := sem c.criterion c.padding_idx reduce s.flatLogits s.flatTarget
  (loss, loss)

structure EntmaxLoggingOutput where
  loss : LossVal
  ntokens : ℕ
  nsentences : ℕ
  sample_size : ℕ
deriving DecidableEq

/-- `EntmaxLossCriterion.forward`: returns the loss, the sample size used
as gradient denominator, and the logging output. -/
def EntmaxLossCriterion.forward (sem : CriterionSem)
    (c : EntmaxLossCriterion) (s : Sample) (reduce : Bool) :
    LossVal × ℕ × EntmaxLoggingOutput :=
  let lossPair := c.compute_loss sem s reduce
  let loss := lossPair.1
  let sample_size := if c.sentence_avg then s.nsentences else s.ntokens
  (loss, sample_size,
   { loss := loss
     ntokens := s.ntokens
     nsentences := s.nsentences
     sample_size := sample_size })

/- ------------------------------------------------------------------
FenchelYoungLabelSmoothingLossCriterion (fyls_loss.py)
------------------------------------------------------------------ -/

structure FenchelYoungLabelSmoothingLossCriterion where
  padding_idx : ℤ
  sentence_avg : Bool
  label_smoothing : ℚ
  criterion : CriterionKind
deriving DecidableEq

/-- First dispatch statement of `FenchelYoungLabelSmoothingLossCriterion.__init__`:
`if loss_alpha == 1: self.criterion = nn.CrossEntropyLoss` (a plain `if`,
not `elif`), acting on the not-yet-assigned `self.criterion`. -/
def fylsDispatchFirst (loss_alpha : ℚ) (c : Option CriterionKind) :
    Option CriterionKind :=
  if loss_alpha = 1 then some .crossEntropy else c

/-- Second dispatch statement: the `if loss_alpha == 1.5 / elif == 2 / else`
chain.  Its `else` arm always assigns, so whatever the previous statement
stored is overwritten. -/
def fylsDispatchSecond (loss_alpha : ℚ) (_c : Option CriterionKind) :
    Option CriterionKind :=
  some (if loss_alpha = 1.5 then .entmax15
        else if loss_alpha = 2 then .sparsemax
        else .entmaxBisect loss_alpha)

/-- The two dispatch statements run in source order. -/
def fylsDispatch (loss_alpha : ℚ) : Option CriterionKind :=
  fylsDispatchSecond loss_alpha (fylsDispatchFirst loss_alpha none)

/-- `FenchelYoungLabelSmoothingLossCriterion.__init__`:
`assert loss_alpha >= 1`, then the two dispatch statements. -/
def FenchelYoungLabelSmoothingLossCriterion.init (task_padding_idx : ℤ)
    (loss_alpha label_smoothing : ℚ) (sentence_avg : Bool) :
    Option FenchelYoungLabelSmoothingLossCriterion :=
  if loss_alpha ≥ 1 then
    (fylsDispatch loss_alpha).map (fun ck =>
      { padding_idx := task_padding_idx
        sentence_avg := sentence_avg
        label_smoothing := label_smoothing
        criterion := ck })
  else
    none

/-- The per-row baseline `z_bar` of `_compute_smoothing`:
`if 0 <= self.padding_idx < logits.size(-1)` then
`(logits.sum(dim=1) - logits[:, self.padding_idx]) / (logits.size(-1) - 1)`,
else `logits.mean(dim=1)`. -/
def zbar (padding_idx : ℤ) (row : List ℚ) : ℚ :=
  if 0 ≤ padding_idx ∧ padding_idx < (row.length : ℤ) then
    (row.sum - row.getD padding_idx.toNat 0) / ((row.length : ℚ) - 1)
  else
    row.sum / (row.length : ℚ)

/-- One position of `_compute_smoothing`: gather `z_ystar = row[target]`,
form `label_smoothing * (z_ystar - z_bar)`, then `masked_fill_` with 0
where the target is the padding index. -/
def smoothingAt (label_smoothing : ℚ) (padding_idx : ℤ) (row : List ℚ)
    (t : ℕ) : ℚ :=
  let z_ystar := row.getD t 0
  let loss_smooth := label_smoothing * (z_ystar - zbar padding_idx row)
  if (t : ℤ) = padding_idx then 0 else loss_smooth

/-- The per-position vector `loss_smooth` of `_compute_smoothing`
(size n, before the optional reduction). -/
def smoothPerPos (label_smoothing : ℚ) (padding_idx : ℤ)
    (logits : List (List ℚ)) (target : List ℕ) : List ℚ :=
  List.zipWith (smoothingAt label_smoothing padding_idx) logits target

/-- `FenchelYoungLabelSmoothingLossCriterion._compute_smoothing`. -/
def FenchelYoungLabelSmoothingLossCriterion.compute_smoothing
    (c : FenchelYoungLabelSmoothingLossCriterion)
    (logits : List (List ℚ)) (target : List ℕ) (reduce : Bool) : LossVal :=
  let loss_smooth := smoothPerPos c.label_smoothing c.padding_idx logits target
  if reduce then .scalar loss_smooth.sum else .vec loss_smooth

/-- `FenchelYoungLabelSmoothingLossCriterion.compute_loss`: the bound
criterion gives `loss_ystar`, the smoothing term is added, and the pair
`(loss, loss_ystar)` is returned. -/
def FenchelYoungLabelSmoothingLossCriterion.compute_loss (sem : CriterionSem)
    (c : FenchelYoungLabelSmoothingLossCriterion) (s : Sample)
    (reduce : Bool) : LossVal × LossVal :=
  let loss_ystar := sem c.criterion c.padding_idx reduce s.flatLogits s.flatTarget
  let loss_smooth := c.compute_smoothing s.flatLogits s.flatTarget reduce
  let loss := loss_ystar.add loss_smooth
  (loss, loss_ystar)

structure FylsLoggingOutput where
  loss : LossVal
  loss_ystar : LossVal
  ntokens : ℕ
  nsentences : ℕ
  sample_size : ℕ
deriving DecidableEq

/-- `FenchelYoungLabelSmoothingLossCriterion.forward`. -/
def FenchelYoungLabelSmoothingLossCriterion.forward (sem : CriterionSem)
    (c : FenchelYoungLabelSmoothingLossCriterion) (s : Sample)
    (reduce : Bool) : LossVal × ℕ × FylsLoggingOutput :=
  let lossPair := c.compute_loss sem s reduce
  let loss := lossPair.1
  let loss_ystar := lossPair.2
  let sample_size := if c.sentence_avg then s.nsentences else s.ntokens
  (loss, sample_size,
   { loss := loss
     loss_ystar := loss_ystar
     ntokens := s.ntokens
     nsentences := s.nsentences
     sample_size := sample_size })

/- ------------------------------------------------------------------
reduce_metrics (both files)
------------------------------------------------------------------ -/

/-- A logging record as `reduce_metrics` reads it: the summed loss fields
and the sample size (`log.get("loss", 0)` etc.; the fields are always
present in records produced by `forward`). -/
structure LoggingRecord where
  loss : ℚ
  loss_ystar : ℚ
  sample_size : ℚ
deriving DecidableEq

/-- Modelled from the spec: `metrics.log_scalar(..., round=3)` — the
fairseq metrics module is not under src/ — displays the scalar rounded to
3 decimal digits. -/
def round3 (x : ℚ) : ℚ :=
  (round (x * 1000) : ℚ) / 1000

/-- `EntmaxLossCriterion.reduce_metrics`: field-wise sums over the records,
then one division, then display rounding. -/
def EntmaxLossCriterion.reduce_metrics (logs : List LoggingRecord) : ℚ :=
  let loss_sum := (logs.map LoggingRecord.loss).sum
  let sample_size := (logs.map LoggingRecord.sample_size).sum
  round3 (loss_sum / sample_size)

/-- `FenchelYoungLabelSmoothingLossCriterion.reduce_metrics`: reports
`loss` and, from the `loss_ystar` fields, `base_loss`. -/
def FenchelYoungLabelSmoothingLossCriterion.reduce_metrics
    (logs : List LoggingRecord) : ℚ × ℚ :=
  let loss_sum := (logs.map LoggingRecord.loss).sum
  let base_loss_sum := (logs.map LoggingRecord.loss_ystar).sum
  let sample_size := (logs.map LoggingRecord.sample_size).sum
  (round3 (loss_sum / sample_size), round3 (base_loss_sum / sample_size))

/- ------------------------------------------------------------------
Helper lemmas
------------------------------------------------------------------ -/

theorem zipWith_getD_of_lt {α β γ : Type} (f : α → β → γ) (dA : α) (dB : β)
    (dC : γ) (l1 : List α) (l2 : List β) (i : ℕ)
    (h1 : i < l1.length) (h2 : i < l2.length) :
    (List.zipWith f l1 l2).getD i dC = f (l1.getD i dA) (l2.getD i dB) := by
  induction l1 generalizing l2 i with
  | nil => simp at h1
  | cons a l1 ih =>
    cases l2 with
    | nil => simp at h2
    | cons b l2 =>
      cases i with
      | zero => rfl
      | succ i =>
        simp only [List.zipWith_cons_cons, List.getD_cons_succ]
        exact ih l2 i (by simpa using h1) (by simpa using h2)

/- ------------------------------------------------------------------
Claims
------------------------------------------------------------------ -/

/-- C1: constructing the smoothing-capable criterion with shape parameter 1
does NOT bind the standard cross-entropy functional.  The first dispatch
statement stores `nn.CrossEntropyLoss`, but the following `if/elif/else`
chain (a plain `if`, not `elif`) always assigns through its `else` arm at
alpha = 1, overwriting it with `EntmaxBisectLoss(alpha=1)`. -/
theorem C1_alpha_one_binds_bisect_not_cross_entropy :
    fylsDispatchFirst 1 none = some CriterionKind.crossEntropy
    ∧ fylsDispatch 1 = some (CriterionKind.entmaxBisect 1)
    ∧ (FenchelYoungLabelSmoothingLossCriterion.init 1 1 (1/10) false).map
        FenchelYoungLabelSmoothingLossCriterion.criterion
        = some (CriterionKind.entmaxBisect 1)
    ∧ ¬ ((FenchelYoungLabelSmoothingLossCriterion.init 1 1 (1/10) false).map
        FenchelYoungLabelSmoothingLossCriterion.criterion
        = some CriterionKind.crossEntropy) := by
  refine ⟨?_, ?_, ?_, ?_⟩ <;>
    norm_num [fylsDispatchFirst, fylsDispatchSecond, fylsDispatch,
      FenchelYoungLabelSmoothingLossCriterion.init]
  decide

/-- C2: in the smoothing-capable criterion, the per-position smoothing term
is `label_smoothing * (z_ystar - z_bar)` with `z_ystar` the logit at the
target index, a position whose target equals the padding index is forced to
exactly zero, and `reduce = true` sums the per-position terms into a scalar
while `reduce = false` returns the per-position vector. -/
theorem C2_smoothing_per_position
    (c : FenchelYoungLabelSmoothingLossCriterion)
    (logits : List (List ℚ)) (target : List ℕ) (i : ℕ)
    (h1 : i < logits.length) (h2 : i < target.length) :
    ((smoothPerPos c.label_smoothing c.padding_idx logits target).getD i 0 =
      if ((target.getD i 0 : ℕ) : ℤ) = c.padding_idx then 0
      else c.label_smoothing *
        ((logits.getD i []).getD (target.getD i 0) 0
          - zbar c.padding_idx (logits.getD i [])))
    ∧ c.compute_smoothing logits target true
        = LossVal.scalar (smoothPerPos c.label_smoothing c.padding_idx logits target).sum
    ∧ c.compute_smoothing logits target false
        = LossVal.vec (smoothPerPos c.label_smoothing c.padding_idx logits target) := by
  refine ⟨?_, rfl, rfl⟩
  rw [smoothPerPos, zipWith_getD_of_lt (smoothingAt c.label_smoothing c.padding_idx)
    [] 0 0 logits target i h1 h2]
  rfl

theorem C2_smoothing_per_position_witness :
    (smoothPerPos
        (FenchelYoungLabelSmoothingLossCriterion.mk 1 false (1/10) .entmax15).label_smoothing
        (FenchelYoungLabelSmoothingLossCriterion.mk 1 false (1/10) .entmax15).padding_idx
        [[(1:ℚ),2,3],[4,5,6]] [2,1]).getD 0 0 =
      if ((([2,1].getD 0 0 : ℕ)) : ℤ)
          = (FenchelYoungLabelSmoothingLossCriterion.mk 1 false (1/10) .entmax15).padding_idx
      then 0
      else (FenchelYoungLabelSmoothingLossCriterion.mk 1 false (1/10) .entmax15).label_smoothing *
        (([[(1:ℚ),2,3],[4,5,6]].getD 0 []).getD ([2,1].getD 0 0) 0
          - zbar (FenchelYoungLabelSmoothingLossCriterion.mk 1 false (1/10) .entmax15).padding_idx
              ([[(1:ℚ),2,3],[4,5,6]].getD 0 [])) :=
  (C2_smoothing_per_position ⟨1, false, 1/10, .entmax15⟩
    [[(1:ℚ),2,3],[4,5,6]] [2,1] 0 (by decide) (by decide)).1

/-- C3: the per-row baseline mean is
`(sum of logits - logit at padding index) / (vocabulary size - 1)` when
`0 <= padding_idx < vocabulary size`, and the plain mean of the row
otherwise. -/
theorem C3_zbar_rule (pad : ℤ) (row : List ℚ) :
    (0 ≤ pad ∧ pad < (row.length : ℤ) →
      zbar pad row = (row.sum - row.getD pad.toNat 0) / ((row.length : ℚ) - 1))
    ∧ (¬ (0 ≤ pad ∧ pad < (row.length : ℤ)) →
      zbar pad row = row.sum / (row.length : ℚ)) := by
  constructor
  · intro h
    simp [zbar, h]
  · intro h
    simp [zbar, h]

theorem C3_zbar_rule_witness :
    (0 ≤ (1:ℤ) ∧ (1:ℤ) < (([(1:ℚ),2,3]).length : ℤ))
    ∧ zbar 1 [(1:ℚ),2,3]
        = (([(1:ℚ),2,3]).sum - ([(1:ℚ),2,3]).getD (1:ℤ).toNat 0)
          / ((([(1:ℚ),2,3]).length : ℚ) - 1) :=
  ⟨by decide, (C3_zbar_rule 1 [(1:ℚ),2,3]).1 (by decide)⟩

/-- C4: the base criterion binds Entmax15Loss at shape parameter 1.5,
SparsemaxLoss at 2, and the bisection functional parameterized by alpha for
any other alpha > 1; the binding is a pure function of the construction
arguments. -/
theorem C4_entmax_dispatch (pad : ℤ) (s : Bool) :
    ((EntmaxLossCriterion.init pad 1.5 s).map EntmaxLossCriterion.criterion
        = some CriterionKind.entmax15)
    ∧ ((EntmaxLossCriterion.init pad 2 s).map EntmaxLossCriterion.criterion
        = some CriterionKind.sparsemax)
    ∧ (∀ a : ℚ, 1 < a → ¬ a = 1.5 → ¬ a = 2 →
        (EntmaxLossCriterion.init pad a s).map EntmaxLossCriterion.criterion
          = some (CriterionKind.entmaxBisect a)) := by
  refine ⟨by norm_num [EntmaxLossCriterion.init], by norm_num [EntmaxLossCriterion.init], ?_⟩
  intro a h1 h15 h2
  simp [EntmaxLossCriterion.init, h1, h15, h2]

theorem C4_entmax_dispatch_witness :
    (EntmaxLossCriterion.init 1 3 false).map EntmaxLossCriterion.criterion
      = some (CriterionKind.entmaxBisect 3) :=
  (C4_entmax_dispatch 1 false).2.2 3 (by norm_num) (by norm_num) (by norm_num)

/-- C5: construction of the base criterion fails exactly when the shape
parameter is ≤ 1, and construction of the smoothing-capable criterion
fails exactly when it is < 1; failure is a property of construction alone. -/
theorem C5_construction_guard (pad : ℤ) (s : Bool) (a eps : ℚ) :
    (EntmaxLossCriterion.init pad a s = none ↔ a ≤ 1)
    ∧ (FenchelYoungLabelSmoothingLossCriterion.init pad a eps s = none ↔ a < 1) := by
  constructor
  · constructor
    · intro hc
      by_contra hgt
      push_neg at hgt
      simp [EntmaxLossCriterion.init, hgt] at hc
    · intro hle
      have hng : ¬ a > 1 := not_lt.mpr hle
      simp [EntmaxLossCriterion.init, hng]
  · constructor
    · intro hc
      by_contra hge
      push_neg at hge
      simp [FenchelYoungLabelSmoothingLossCriterion.init, fylsDispatch,
        fylsDispatchSecond, hge] at hc
    · intro hlt
      have hng : ¬ a ≥ 1 := not_le.mpr hlt
      simp [FenchelYoungLabelSmoothingLossCriterion.init, hng]

/-- C6: in the smoothing-capable criterion the loss returned by
`compute_loss` is the base Fenchel-Young loss plus the smoothing term,
and the base loss alone is what `forward` stores in the logging record's
separate base-loss field (`loss_ystar`). -/
theorem C6_loss_decomposition (sem : CriterionSem)
    (c : FenchelYoungLabelSmoothingLossCriterion) (s : Sample) (r : Bool) :
    ((c.compute_loss sem s r).1 =
      (sem c.criterion c.padding_idx r s.flatLogits s.flatTarget).add
        (c.compute_smoothing s.flatLogits s.flatTarget r))
    ∧ ((c.compute_loss sem s r).2 =
        sem c.criterion c.padding_idx r s.flatLogits s.flatTarget)
    ∧ ((c.forward sem s r).1 = (c.compute_loss sem s r).1)
    ∧ ((c.forward sem s r).2.2.loss = (c.compute_loss sem s r).1)
    ∧ ((c.forward sem s r).2.2.loss_ystar = (c.compute_loss sem s r).2) :=
  ⟨rfl, rfl, rfl, rfl, rfl⟩

/-- C7: `reduce_metrics` reports the field-wise loss sum divided by the
field-wise sample-size sum, rounded to 3 decimal digits, for both
criteria (plus `base_loss` from the `loss_ystar` fields in the smoothing
variant); two records with losses 5 and 15 and sample sizes 10 and 20
report 0.667. -/
theorem C7_reduce_metrics_ratio (logs : List LoggingRecord) :
    (EntmaxLossCriterion.reduce_metrics logs =
      round3 ((logs.map LoggingRecord.loss).sum
        / (logs.map LoggingRecord.sample_size).sum))
    ∧ (FenchelYoungLabelSmoothingLossCriterion.reduce_metrics logs =
        (round3 ((logs.map LoggingRecord.loss).sum
          / (logs.map LoggingRecord.sample_size).sum),
         round3 ((logs.map LoggingRecord.loss_ystar).sum
          / (logs.map LoggingRecord.sample_size).sum)))
    ∧ EntmaxLossCriterion.reduce_metrics
        [⟨5, 0, 10⟩, ⟨15, 0, 20⟩] = 667/1000 := by
  refine ⟨rfl, rfl, ?_⟩
  have hsum : ((([⟨5, 0, 10⟩, ⟨15, 0, 20⟩] : List LoggingRecord).map
      LoggingRecord.loss).sum
      / (([⟨5, 0, 10⟩, ⟨15, 0, 20⟩] : List LoggingRecord).map
        LoggingRecord.sample_size).sum : ℚ) = 2/3 := by
    norm_num
  have hround : round ((2:ℚ)/3 * 1000) = 667 := by
    rw [show ((2:ℚ)/3 * 1000) = 2000/3 by norm_num, round_eq,
      show ((2000:ℚ)/3 + 1/2) = 4003/6 by norm_num]
    rw [Int.floor_eq_iff]
    norm_num
  rw [EntmaxLossCriterion.reduce_metrics, hsum, round3, hround]
  norm_num

/-- C8: `reduce_metrics` is invariant under permutation of the logging
records, for both criteria: all summation happens before the single
division. -/
theorem C8_reduce_metrics_perm_invariant (l1 l2 : List LoggingRecord)
    (h : l1.Perm l2) :
    EntmaxLossCriterion.reduce_metrics l1 = EntmaxLossCriterion.reduce_metrics l2
    ∧ FenchelYoungLabelSmoothingLossCriterion.reduce_metrics l1
        = FenchelYoungLabelSmoothingLossCriterion.reduce_metrics l2 := by
  have hl : (l1.map LoggingRecord.loss).sum = (l2.map LoggingRecord.loss).sum :=
    (h.map LoggingRecord.loss).sum_eq
  have hy : (l1.map LoggingRecord.loss_ystar).sum
      = (l2.map LoggingRecord.loss_ystar).sum :=
    (h.map LoggingRecord.loss_ystar).sum_eq
  have hs : (l1.map LoggingRecord.sample_size).sum
      = (l2.map LoggingRecord.sample_size).sum :=
    (h.map LoggingRecord.sample_size).sum_eq
  constructor
  · rw [EntmaxLossCriterion.reduce_metrics, EntmaxLossCriterion.reduce_metrics,
      hl, hs]
  · rw [FenchelYoungLabelSmoothingLossCriterion.reduce_metrics,
      FenchelYoungLabelSmoothingLossCriterion.reduce_metrics, hl, hy, hs]

theorem C8_reduce_metrics_perm_invariant_witness :
    EntmaxLossCriterion.reduce_metrics [⟨1, 2, 3⟩, ⟨4, 5, 6⟩]
      = EntmaxLossCriterion.reduce_metrics [⟨4, 5, 6⟩, ⟨1, 2, 3⟩]
    ∧ FenchelYoungLabelSmoothingLossCriterion.reduce_metrics [⟨1, 2, 3⟩, ⟨4, 5, 6⟩]
      = FenchelYoungLabelSmoothingLossCriterion.reduce_metrics [⟨4, 5, 6⟩, ⟨1, 2, 3⟩] :=
  C8_reduce_metrics_perm_invariant _ _ (List.Perm.swap _ _ _)

/-- C9: the base criterion's `compute_loss` returns the same loss value in
both components of the pair. -/
theorem C9_compute_loss_returns_pair (sem : CriterionSem)
    (c : EntmaxLossCriterion) (s : Sample) (r : Bool) :
    (c.compute_loss sem s r =
      (sem c.criterion c.padding_idx r s.flatLogits s.flatTarget,
       sem c.criterion c.padding_idx r s.flatLogits s.flatTarget))
    ∧ (c.compute_loss sem s r).1 = (c.compute_loss sem s r).2 :=
  ⟨rfl, rfl⟩

/-- C10: in both criteria, `forward` returns and logs a sample size equal
to the batch's sentence count when `sentence_avg` is set, and to the
batch's token count `ntokens` otherwise. -/
theorem C10_sample_size (sem : CriterionSem) (ce : EntmaxLossCriterion)
    (cf : FenchelYoungLabelSmoothingLossCriterion) (s : Sample) (r : Bool) :
    ((ce.forward sem s r).2.1
        = if ce.sentence_avg then s.nsentences else s.ntokens)
    ∧ ((ce.forward sem s r).2.2.sample_size = (ce.forward sem s r).2.1)
    ∧ ((cf.forward sem s r).2.1
        = if cf.sentence_avg then s.nsentences else s.ntokens)
    ∧ ((cf.forward sem s r).2.2.sample_size = (cf.forward sem s r).2.1) :=
  ⟨rfl, rfl, rfl, rfl⟩
